import Mathlib

/-!
Verification development for the AI file-renamer core
(`src/ai_file_renamer.py` of jonahlin803/CS4680Project2).

The Python functions `list_files_in_directory`, `validate_rename_plan` and
`execute_renames` are shallowly embedded below.  The filesystem is modelled
as a partial map from file names to abstract content identifiers; the LLM
plan is modelled as JSON-ish data (entries may be non-objects, keys may be
missing, values may be non-strings) so that the Python error behaviour
(`ValueError` vs. unhandled `TypeError`/`AttributeError`) can be captured
faithfully.  The `uuid.uuid4().hex` stream and the possibility of an OS
rename call failing are modelled as explicit oracles passed to the
executor.
-/
namespace AiFileRenamer

/-- A directory: each present file name maps to an abstract content id. -/
abbrev Fs := String → Option Nat

/-- JSON-ish scalar values appearing in a candidate rename entry. -/
inductive JVal where
  | s (v : String)
  | i (v : Int)
  | null
deriving DecidableEq, Repr

/-- One element of the candidate `renames` list: either a JSON object
(a list of key/value pairs, as produced by `json.loads`) or some
non-object value (`nondict`), which Python's `isinstance(item, dict)`
check rejects and whose `.get` raises `AttributeError`. -/
inductive JItem where
  | dict (pairs : List (String × JVal))
  | nondict
deriving DecidableEq, Repr

/-- `item.get(k)`: `none` models Python `None` for a missing key. -/
def JItem.get : JItem → String → Option JVal
  | .dict ps, k => (ps.find? (fun p => p.1 = k)).map (·.2)
  | .nondict, _ => none

/-- Python truthiness of a `dict.get` result (`not old` / `not new`). -/
def truthy : Option JVal → Bool
  | none => false
  | some (.s v) => v ≠ ""
  | some (.i n) => n ≠ 0
  | some .null => false

/-- Python `==` between a `dict.get` result and a string value
(the only comparison shape reached in `validate_rename_plan`). -/
def pyEqS (v : Option JVal) (s : String) : Bool :=
  match v with
  | some (.s a) => a = s
  | _ => false

/-- The kinds of `ValueError` raised by `validate_rename_plan`. -/
inductive VKind where
  | missingRenames
  | notAnObject
  | missingOldNew
  | oldNotFound (old : String)
  | dupOld (old : String)
  | dupNew (new : String)
  | illegalChar (new : String)
  | targetExists (new : String)
deriving DecidableEq, Repr

/-- Outcome classes of the Python validator: descriptive `ValueError`s
versus unhandled faults (`TypeError` from `directory / non-str` or
`char in non-str`, `AttributeError` from `.get` on a non-dict). -/
inductive PyErr where
  | valueError (k : VKind)
  | typeError
  | attributeError
deriving DecidableEq, Repr

/-- A cleaned plan entry as appended to `cleaned_plan`. -/
structure RenameEntry where
  old : String
  new : String
deriving DecidableEq, Repr

instance {ε α : Type} [DecidableEq ε] [DecidableEq α] :
    DecidableEq (Except ε α) := fun a b =>
  match a, b with
  | .ok x, .ok y =>
    if h : x = y then .isTrue (by rw [h]) else .isFalse (by simp [h])
  | .error x, .error y =>
    if h : x = y then .isTrue (by rw [h]) else .isFalse (by simp [h])
  | .ok _, .error _ => .isFalse (by simp)
  | .error _, .ok _ => .isFalse (by simp)

/-- The reserved characters rejected in new names (line 233 of the source). -/
def illegal_chars : List Char :=
  ['/', '\\', ':', '*', '?', '"', '<', '>', '|', '\x00']

/-- The `is_swap` scan (source lines 266-270): walk the whole candidate
list looking for an entry with `old == new ∧ new == old`; touching a
non-dict element raises `AttributeError` before any later match. -/
def isSwapScan (renames : List JItem) (old new : String) : Except PyErr Bool :=
  match renames with
  | [] => .ok false
  | .nondict :: _ => .error .attributeError
  | .dict ps :: rest =>
    if pyEqS ((JItem.dict ps).get "old") new && pyEqS ((JItem.dict ps).get "new") old
    then .ok true
    else isSwapScan rest old new

/-- The per-entry loop of `validate_rename_plan` (source lines 235-278),
threading the `old_names` / `new_names` sets and the `cleaned_plan`
accumulator. -/
def validateItems (fs : Fs) (allRenames : List JItem) :
    List JItem → List String → List String → List RenameEntry →
    Except PyErr (List RenameEntry)
  | [], _, _, acc => .ok acc
  | item :: rest, oldNames, newNames, acc =>
    match item with
    | .nondict => .error (.valueError .notAnObject)
    | .dict ps =>
      let old := (JItem.dict ps).get "old"
      let new := (JItem.dict ps).get "new"
      if truthy old && truthy new then
        match old with
        | some (.s so) =>
          if (fs so).isNone then .error (.valueError (.oldNotFound so))
          else if so ∈ oldNames then .error (.valueError (.dupOld so))
          else if (match new with
                   | some (.s sn) => decide (sn ∈ newNames)
                   | _ => false) = true then
            .error (.valueError (.dupNew (match new with | some (.s sn) => sn | _ => "")))
          else
            match new with
            | some (.s sn) =>
              if illegal_chars.any (fun c => c ∈ sn.data) then
                .error (.valueError (.illegalChar sn))
              else
                match isSwapScan allRenames so sn with
                | .error e => .error e
                | .ok isSwap =>
                  if (fs sn).isSome ∧ sn ∉ oldNames ∧ isSwap = false then
                    .error (.valueError (.targetExists sn))
                  else
                    validateItems fs allRenames rest (oldNames ++ [so])
                      (newNames ++ [sn]) (acc ++ [⟨so, sn⟩])
            | _ => .error .typeError
        | _ => .error .typeError
      else .error (.valueError .missingOldNew)

/-- The shape of the LLM response around the `renames` key
(source lines 222-223). -/
inductive JPlan where
  | missingRenames
  | renamesNotList
  | renames (items : List JItem)

/-- `validate_rename_plan(directory, plan)` (source lines 213-280). -/
def validate_rename_plan (fs : Fs) (plan : JPlan) : Except PyErr (List RenameEntry) :=
  match plan with
  | .missingRenames => .error (.valueError .missingRenames)
  | .renamesNotList => .error (.valueError .missingRenames)
  | .renames items => validateItems fs items items [] [] []

/-! ## The executor -/

/-- `rename_map.get(k)` for a validated plan (unique `old` names, so the
first match coincides with the Python dict built on line 319). -/
def lookupRM (renames : List RenameEntry) (k : String) : Option String :=
  (renames.find? (fun e => e.old = k)).map (·.new)

/-- Is this entry half of an exact 2-cycle (source line 337:
`rename_map.get(new) == old`)? -/
def isSwapEntry (renames : List RenameEntry) (e : RenameEntry) : Bool :=
  lookupRM renames e.new == some e.old

/-- The `needs_temp` probe (source lines 320-324). -/
def needs_temp (renames : List RenameEntry) : Bool :=
  renames.any (isSwapEntry renames)

/-- `f".temp_{uuid.uuid4().hex[:8]}_{new}"` with the hex infix made explicit. -/
def tempName (hex8 : String) (new : String) : String :=
  ".temp_" ++ hex8 ++ "_" ++ new

/-- Build `(temp_renames, final_renames)` (source lines 329-344); `hexes`
is the stream of `uuid4().hex` draws and `k` counts draws made so far. -/
def buildStaged (hexes : Nat → String) (renames : List RenameEntry) :
    List RenameEntry → Nat → List RenameEntry × List RenameEntry
  | [], _ => ([], [])
  | e :: rest, k =>
    if isSwapEntry renames e then
      let t := tempName ((hexes k).take 8) e.new
      let p := buildStaged hexes renames rest (k + 1)
      (⟨e.old, t⟩ :: p.1, ⟨t, e.new⟩ :: p.2)
    else
      let p := buildStaged hexes renames rest k
      (e :: p.1, p.2)

/-- Events written to the run log / console by `execute_renames`. -/
inductive Ev where
  | stagedOk (old new : String)
  | renamedOk (old new : String)
  | failed (old new : String)
  | summary (succ fail : Nat)
deriving DecidableEq, Repr

/-- POSIX `os.rename` within one directory: the source must exist and the
destination is silently replaced. -/
def fsRename (fs : Fs) (src dst : String) : Fs :=
  fun n => if n = dst then fs src else if n = src then none else fs n

/-- One rename attempt.  `failAt` is the external-failure oracle (indexed
by the global attempt counter `j`); a missing source also fails, matching
`FileNotFoundError`.  Either failure is raised to the enclosing
`try/except`. -/
def tryRename (failAt : Nat → Bool) (j : Nat) (fs : Fs) (src dst : String) :
    Option Fs :=
  if failAt j then none
  else match fs src with
    | none => none
    | some _ => some (fsRename fs src dst)

/-- Outcome of the Phase-1 loop (source lines 347-359): `fatal` models the
early `return` after the first failed staging rename. -/
inductive P1Out where
  | fatal (fs : Fs) (log : List Ev) (j : Nat)
  | done (fs : Fs) (log : List Ev) (j : Nat)

/-- Phase 1: run the `temp_renames` list; stop at the first failure. -/
def runPhase1 (failAt : Nat → Bool) :
    List RenameEntry → Nat → Fs → List Ev → P1Out
  | [], j, fs, log => .done fs log j
  | e :: rest, j, fs, log =>
    match tryRename failAt j fs e.old e.new with
    | some fs' => runPhase1 failAt rest (j + 1) fs' (log ++ [.stagedOk e.old e.new])
    | none => .fatal fs (log ++ [.failed e.old e.new]) (j + 1)

/-- State threaded through the counting loops (Phase 2 and the
conflict-free path, source lines 362-375 and 378-392). -/
structure LoopSt where
  fs : Fs
  log : List Ev
  j : Nat
  sc : Nat
  ec : Nat

/-- The counting rename loop: each success logs `[OK]` and bumps
`success_count`, each failure logs `[ERR]` and bumps `error_count`. -/
def runLoop (failAt : Nat → Bool) :
    List RenameEntry → Nat → Fs → List Ev → Nat → Nat → LoopSt
  | [], j, fs, log, sc, ec => ⟨fs, log, j, sc, ec⟩
  | e :: rest, j, fs, log, sc, ec =>
    match tryRename failAt j fs e.old e.new with
    | some fs' =>
      runLoop failAt rest (j + 1) fs' (log ++ [.renamedOk e.old e.new]) (sc + 1) ec
    | none =>
      runLoop failAt rest (j + 1) fs (log ++ [.failed e.old e.new]) sc (ec + 1)

/-- Result of `execute_renames`: final directory state, the two counters
of the closing `Done. ... successful, ... failed.` line, and the log. -/
structure ExecResult where
  fs : Fs
  success_count : Nat
  error_count : Nat
  log : List Ev

/-- `execute_renames(directory, renames, logger)` (source lines 307-395). -/
def execute_renames (failAt : Nat → Bool) (hexes : Nat → String)
    (fs : Fs) (renames : List RenameEntry) : ExecResult :=
  if needs_temp renames then
    let p := buildStaged hexes renames renames 0
    match runPhase1 failAt p.1 0 fs [] with
    | .fatal fs' log' _ => ⟨fs', 0, 1, log'⟩
    | .done fs' log' j =>
      let st := runLoop failAt p.2 j fs' log' 0 0
      ⟨st.fs, st.sc, st.ec, st.log ++ [.summary st.sc st.ec]⟩
  else
    let st := runLoop failAt renames 0 fs [] 0 0
    ⟨st.fs, st.sc, st.ec, st.log ++ [.summary st.sc st.ec]⟩

/-! ## Log-event classifiers -/

/-- Is this log event a per-entry failure record? -/
def isFailedEv : Ev → Bool
  | .failed _ _ => true
  | _ => false

/-- Is this log event a counted success (`[OK]` line)? -/
def isOkEv : Ev → Bool
  | .renamedOk _ _ => true
  | _ => false

/-- Is this log event an uncounted Phase-1 staging success? -/
def isStagedEv : Ev → Bool
  | .stagedOk _ _ => true
  | _ => false

/-- Number of per-entry failures recorded in a log. -/
def countFailed (log : List Ev) : Nat := (log.filter isFailedEv).length

/-- Number of counted successes recorded in a log. -/
def countOk (log : List Ev) : Nat := (log.filter isOkEv).length

/-! ## The validator's output is the cleaned projection of its input -/

/-- The cleaned entry the validator builds from one candidate item:
exactly the `old`/`new` string values, everything else discarded. -/
def cleanOf (it : JItem) : RenameEntry :=
  match it.get "old", it.get "new" with
  | some (.s so), some (.s sn) => ⟨so, sn⟩
  | _, _ => ⟨"", ""⟩

/-! ## Concrete scenarios -/

/-- Directory holding exactly `A.txt` (content 0) and `B.txt` (content 1). -/
def fsAB : Fs := fun n =>
  if n = "A.txt" then some 0 else if n = "B.txt" then some 1 else none

/-- The validated 2-cycle swap plan. -/
def swapPlan : List RenameEntry := [⟨"A.txt", "B.txt"⟩, ⟨"B.txt", "A.txt"⟩]

/-- Directory holding exactly `A` (0), `B` (1) and `C` (2). -/
def fsABC : Fs := fun n =>
  if n = "A" then some 0 else if n = "B" then some 1
  else if n = "C" then some 2 else none

/-- The candidate 3-cycle `A→B, B→C, C→A` as LLM JSON. -/
def threeCycleItems : List JItem :=
  [.dict [("old", .s "A"), ("new", .s "B")],
   .dict [("old", .s "B"), ("new", .s "C")],
   .dict [("old", .s "C"), ("new", .s "A")]]

/-- The same 3-cycle as a cleaned entry list (what the applier would see
if validation were bypassed). -/
def threeCycleEntries : List RenameEntry :=
  [⟨"A", "B"⟩, ⟨"B", "C"⟩, ⟨"C", "A"⟩]

/-- The chain `A.txt→B.txt, B.txt→C.txt`: `B.txt` is occupied but vacated
by the second entry of the same plan. -/
def chainItems : List JItem :=
  [.dict [("old", .s "A.txt"), ("new", .s "B.txt")],
   .dict [("old", .s "B.txt"), ("new", .s "C.txt")]]

/-- The same chain with the vacating entry listed first. -/
def chainItemsRev : List JItem :=
  [.dict [("old", .s "B.txt"), ("new", .s "C.txt")],
   .dict [("old", .s "A.txt"), ("new", .s "B.txt")]]

/-- Directory holding exactly `A.txt` (0), `B.txt` (1), `C.txt` (2). -/
def fsABC' : Fs := fun n =>
  if n = "A.txt" then some 0 else if n = "B.txt" then some 1
  else if n = "C.txt" then some 2 else none

/-- A mixed plan: a 2-cycle swap plus a conflict-free entry `C.txt→D.txt`. -/
def mixEntries : List RenameEntry :=
  [⟨"A.txt", "B.txt"⟩, ⟨"B.txt", "A.txt"⟩, ⟨"C.txt", "D.txt"⟩]

/-- A constant `uuid4().hex` stream (32 hex chars, as `uuid` produces). -/
def hexConst : Nat → String := fun _ => "00000000ffffffffeeeeeeeedddddddd"

/-- The no-external-failure oracle: every rename syscall succeeds. -/
def neverFail : Nat → Bool := fun _ => false

/-! ## C9 — truthy non-string values crash the validator (code bug) -/

/-- Directory holding exactly `a.txt` (content 0). -/
def fsA : Fs := fun n => if n = "a.txt" then some 0 else none

/-! ## C10 witness -/

/-- A candidate entry with an extra `note` key, over the `fsA` directory. -/
def extraKeyItems : List JItem :=
  [.dict [("old", .s "a.txt"), ("new", .s "b.txt"), ("note", .s "extra")]]

/-! ## C3 — the 2-cycle swap is accepted and applied correctly -/

/-- A directory holding exactly `A.txt` and `B.txt` with arbitrary
contents `a` and `b`. -/
def fsAB2 (a b : Nat) : Fs := fun n =>
  if n = "A.txt" then some a else if n = "B.txt" then some b else none

/-- The swap candidate mapping as LLM JSON. -/
def swapItems : List JItem :=
  [.dict [("old", .s "A.txt"), ("new", .s "B.txt")],
   .dict [("old", .s "B.txt"), ("new", .s "A.txt")]]

/-! ## C6 — temporary-name collision freedom -/

/-- The temporary names generated for the staged (swap) entries of a
plan, in staging order. -/
def stagedTempNames (hexes : Nat → String) (renames : List RenameEntry) :
    List String :=
  ((buildStaged hexes renames renames 0).2).map (·.old)

/-- The C6 claim as stated: whenever staging is used, every generated
temporary name collides neither with an existing file, nor with any plan
target, nor with another temporary name. -/
def tempNamesCollisionFree : Prop :=
  ∀ (hexes : Nat → String) (fs : Fs) (renames : List RenameEntry),
    needs_temp renames = true →
    (∀ t ∈ stagedTempNames hexes renames, fs t = none) ∧
    (∀ t ∈ stagedTempNames hexes renames, ∀ e ∈ renames, t ≠ e.new) ∧
    (stagedTempNames hexes renames).Nodup

/-- A `uuid` stream that draws the all-zero hex value every time. -/
def hexZeros : Nat → String := fun _ => "00000000000000000000000000000000"

/-- A directory that already contains a file whose name has the generated
temp shape. -/
def fsWithTemp : Fs := fun n =>
  if n = "A.txt" then some 0 else if n = "B.txt" then some 1
  else if n = ".temp_00000000_B.txt" then some 9 else none

/-- A validatable plan whose third target has the generated temp shape. -/
def mixPlanTemp : List RenameEntry :=
  [⟨"A.txt", "B.txt"⟩, ⟨"B.txt", "A.txt"⟩, ⟨"C.txt", ".temp_00000000_B.txt"⟩]

/-! ## C8 — the directory snapshot -/

/-- One directory entry as the filesystem reports it: name, regular-file
flag, size and the three `stat` timestamps. -/
structure DirEntry where
  name : String
  isFile : Bool
  size : Nat
  ctime : Nat
  mtime : Nat
  atime : Nat
deriving DecidableEq, Repr

/-- The record built by `list_files_in_directory` (source lines 80-84):
only `name`, `creation_time` and `size`. -/
structure FileInfo where
  name : String
  creation_time : Nat
  size : Nat
deriving DecidableEq, Repr

/-- Index of the last `'.'` in a character list, if any. -/
def lastDotIdx : List Char → Option Nat
  | [] => none
  | c :: rest =>
    match lastDotIdx rest with
    | some i => some (i + 1)
    | none => if c = '.' then some 0 else none

/-- `pathlib.Path(name).suffix`: the part from the last dot on, unless
the dot is the first or the last character. -/
def pathSuffix (name : String) : String :=
  match lastDotIdx name.data with
  | some i => if 0 < i ∧ i + 1 < name.length then ⟨name.data.drop i⟩ else ""
  | none => ""

/-- Extension normalization (source line 73): ensure a leading dot. -/
def normalizeExt (e : String) : String :=
  if e.startsWith "." then e else "." ++ e

/-- The extension filter (source lines 71-74); `if extensions:` treats
both `None` and the empty list as no filter. -/
def extMatch (extensions : Option (List String)) (name : String) : Bool :=
  match extensions with
  | none => true
  | some exts =>
    if exts.isEmpty then true
    else (pathSuffix name).toLower ∈ exts.map normalizeExt

/-- The metadata record for one file (source lines 79-84). -/
def toFileInfo (e : DirEntry) : FileInfo := ⟨e.name, e.ctime, e.size⟩

/-- `list_files_in_directory(directory, extensions)` (source lines
58-89): keep regular files, apply the optional extension filter, record
name, creation time and size, and sort by name. -/
def list_files_in_directory (dir : List DirEntry)
    (extensions : Option (List String)) : List FileInfo :=
  let fileObjects := dir.filter (fun f => f.isFile)
  let filtered := fileObjects.filter (fun f => extMatch extensions f.name)
  let infos := filtered.map toFileInfo
  infos.insertionSort (fun a b => a.name ≤ b.name)

instance : IsTotal FileInfo (fun a b : FileInfo => a.name ≤ b.name) :=
  ⟨fun a b => le_total a.name b.name⟩

instance : IsTrans FileInfo (fun a b : FileInfo => a.name ≤ b.name) :=
  ⟨fun _ _ _ h1 h2 => le_trans h1 h2⟩

/-- A file with modification time 200 and access time 300. -/
def dirM1 : List DirEntry := [⟨"x.txt", true, 10, 100, 200, 300⟩]

/-- The same file with a different modification time. -/
def dirM2 : List DirEntry := [⟨"x.txt", true, 10, 100, 999, 300⟩]

/-- The same file with a different access time. -/
def dirM3 : List DirEntry := [⟨"x.txt", true, 10, 100, 200, 777⟩]

/-- The failure oracle used by the C4 witness: the second rename syscall
of the run fails. -/
def failSecond : Nat → Bool := fun k => k == 1

lemma validateItems_ok (fs : Fs) (allR : List JItem) :
    ∀ (items : List JItem) (oldNames newNames : List String)
      (acc res : List RenameEntry),
      validateItems fs allR items oldNames newNames acc = .ok res →
      res = acc ++ items.map cleanOf := by
  intro items
  induction items with
  | nil =>
    intro oN nN acc res h
    simp only [validateItems, Except.ok.injEq] at h
    simp [h]
  | cons item rest ih =>
    intro oN nN acc res h
    cases item with
    | nondict => simp [validateItems] at h
    | dict ps =>
      simp only [validateItems] at h
      split at h
      · split at h
        · split at h
          · simp at h
          · split at h
            · simp at h
            · split at h
              · simp at h
              · split at h
                · split at h
                  · simp at h
                  · split at h
                    · simp at h
                    · split at h
                      · simp at h
                      · have hres := ih _ _ _ _ h
                        simp_all [cleanOf]
                · simp at h
        · simp at h
      · simp at h

/-- C10: a successful validation returns the accepted entries in exactly
candidate-list order, each consisting of exactly the original `old` and
`new` string values (extra keys of a candidate entry are discarded). -/
theorem c10_order_theorem (fs : Fs) (items : List JItem)
    (res : List RenameEntry)
    (h : validate_rename_plan fs (.renames items) = .ok res) :
    res = items.map cleanOf := by
  have := validateItems_ok fs items items [] [] [] res h
  simpa using this

/-! ## C1 — the 3-cycle is in fact rejected (code bug) -/

/-- C1: the claim says `validate_rename_plan` accepts the 3-cycle
`A→B, B→C, C→A` over files `A,B,C` and `execute_renames` rotates the
three files.  In fact validation raises `Target filename already exists:
B` on the very first entry (the permutation exception covers only exact
2-cycles and targets vacated by *earlier* entries), and if the plan were
applied anyway the applier would treat it as conflict-free, report three
successes, and destroy the contents of `B` and `C`. -/
theorem c1_code_eval :
    validate_rename_plan fsABC (.renames threeCycleItems) =
      .error (.valueError (.targetExists "B")) ∧
    (execute_renames neverFail hexConst fsABC threeCycleEntries).success_count = 3 ∧
    (execute_renames neverFail hexConst fsABC threeCycleEntries).error_count = 0 ∧
    (execute_renames neverFail hexConst fsABC threeCycleEntries).fs "A" = some 0 ∧
    (execute_renames neverFail hexConst fsABC threeCycleEntries).fs "B" = none ∧
    (execute_renames neverFail hexConst fsABC threeCycleEntries).fs "C" = none := by
  decide

/-! ## C2 — target-exists acceptance is position-dependent (code bug) -/

/-- C2: the claim says an occupied target is accepted whenever it is the
`old` of *some* other entry, regardless of that entry's position and of
cycle length.  In fact `A.txt→B.txt, B.txt→C.txt` is rejected with a
target-exists error (the vacating entry comes later and is not an exact
2-cycle), while the reordered plan `B.txt→C.txt, A.txt→B.txt` is
accepted. -/
theorem c2_code_eval :
    validate_rename_plan fsAB (.renames chainItems) =
      .error (.valueError (.targetExists "B.txt")) ∧
    validate_rename_plan fsAB (.renames chainItemsRev) =
      .ok [⟨"B.txt", "C.txt"⟩, ⟨"A.txt", "B.txt"⟩] := by
  decide

/-! ## C7 — staged direct renames are never counted as successes (code bug) -/

/-- C7: on the mixed plan `A.txt↔B.txt` swap plus `C.txt→D.txt`, all three
entries end up correctly renamed, yet the final report says `2 successful,
0 failed`: the conflict-free entry is executed inside Phase 1 of the
staged path, whose loop never increments `success_count`. -/
theorem c7_code_eval :
    (execute_renames neverFail hexConst fsABC' mixEntries).success_count = 2 ∧
    (execute_renames neverFail hexConst fsABC' mixEntries).error_count = 0 ∧
    (execute_renames neverFail hexConst fsABC' mixEntries).fs "B.txt" = some 0 ∧
    (execute_renames neverFail hexConst fsABC' mixEntries).fs "A.txt" = some 1 ∧
    (execute_renames neverFail hexConst fsABC' mixEntries).fs "D.txt" = some 2 ∧
    (execute_renames neverFail hexConst fsABC' mixEntries).fs "C.txt" = none := by
  decide

/-- C9: the claim says every malformed entry — including a non-string
value — yields a descriptive malformed-entry `ValueError` and never an
unhandled fault.  In fact a truthy non-string `old` (here the integer 1)
passes the `not old` truthiness test and crashes with `TypeError` at
`directory / old`; and a non-dict element later in the list crashes the
`is_swap` scan of an earlier entry with `AttributeError` before its own
`isinstance` check is ever reached. -/
theorem c9_code_eval :
    validate_rename_plan fsA
      (.renames [.dict [("old", .i 1), ("new", .s "b.txt")]]) =
      .error .typeError ∧
    validate_rename_plan fsA
      (.renames [.dict [("old", .s "a.txt"), ("new", .s "b.txt")], .nondict]) =
      .error .attributeError := by
  decide

/-- Witness for C10: a concrete successful validation whose output is the
in-order `old`/`new` projection of the candidate list, extra key dropped. -/
theorem c10_order_witness :
    ([⟨"a.txt", "b.txt"⟩] : List RenameEntry) = extraKeyItems.map cleanOf :=
  c10_order_theorem fsA extraKeyItems [⟨"a.txt", "b.txt"⟩] (by decide)

/-! ## Accounting lemmas for the executor -/

lemma countFailed_append (a b : List Ev) :
    countFailed (a ++ b) = countFailed a + countFailed b := by
  simp [countFailed, List.filter_append]

lemma countOk_append (a b : List Ev) :
    countOk (a ++ b) = countOk a + countOk b := by
  simp [countOk, List.filter_append]

lemma countFailed_of_staged (l : List Ev) (h : ∀ x ∈ l, isStagedEv x = true) :
    countFailed l = 0 := by
  simp only [countFailed, List.length_eq_zero]
  refine List.filter_eq_nil_iff.mpr ?_
  intro a ha
  have := h a ha
  cases a <;> simp_all [isStagedEv, isFailedEv]

lemma countOk_of_staged (l : List Ev) (h : ∀ x ∈ l, isStagedEv x = true) :
    countOk l = 0 := by
  simp only [countOk, List.length_eq_zero]
  refine List.filter_eq_nil_iff.mpr ?_
  intro a ha
  have := h a ha
  cases a <;> simp_all [isStagedEv, isOkEv]

lemma runLoop_ec (failAt : Nat → Bool) :
    ∀ (l : List RenameEntry) (j : Nat) (fs : Fs) (log : List Ev) (sc ec : Nat),
      (runLoop failAt l j fs log sc ec).ec + countFailed log =
        ec + countFailed (runLoop failAt l j fs log sc ec).log := by
  intro l
  induction l with
  | nil => intro j fs log sc ec; simp [runLoop]
  | cons e rest ih =>
    intro j fs log sc ec
    rcases htr : tryRename failAt j fs e.old e.new with _ | fs'
    · simp only [runLoop, htr]
      have h2 := ih (j + 1) fs (log ++ [.failed e.old e.new]) sc (ec + 1)
      rw [countFailed_append] at h2
      have h3 : countFailed [Ev.failed e.old e.new] = 1 := rfl
      omega
    · simp only [runLoop, htr]
      have h2 := ih (j + 1) fs' (log ++ [.renamedOk e.old e.new]) (sc + 1) ec
      rw [countFailed_append] at h2
      have h3 : countFailed [Ev.renamedOk e.old e.new] = 0 := rfl
      omega

lemma runLoop_sc (failAt : Nat → Bool) :
    ∀ (l : List RenameEntry) (j : Nat) (fs : Fs) (log : List Ev) (sc ec : Nat),
      (runLoop failAt l j fs log sc ec).sc + countOk log =
        sc + countOk (runLoop failAt l j fs log sc ec).log := by
  intro l
  induction l with
  | nil => intro j fs log sc ec; simp [runLoop]
  | cons e rest ih =>
    intro j fs log sc ec
    rcases htr : tryRename failAt j fs e.old e.new with _ | fs'
    · simp only [runLoop, htr]
      have h2 := ih (j + 1) fs (log ++ [.failed e.old e.new]) sc (ec + 1)
      rw [countOk_append] at h2
      have h3 : countOk [Ev.failed e.old e.new] = 0 := rfl
      omega
    · simp only [runLoop, htr]
      have h2 := ih (j + 1) fs' (log ++ [.renamedOk e.old e.new]) (sc + 1) ec
      rw [countOk_append] at h2
      have h3 : countOk [Ev.renamedOk e.old e.new] = 1 := rfl
      omega

lemma runPhase1_done_log (failAt : Nat → Bool) :
    ∀ (ts : List RenameEntry) (j : Nat) (fs : Fs) (log : List Ev)
      (fs' : Fs) (log' : List Ev) (j' : Nat),
      runPhase1 failAt ts j fs log = .done fs' log' j' →
      ∃ ev, log' = log ++ ev ∧ ∀ x ∈ ev, isStagedEv x = true := by
  intro ts
  induction ts with
  | nil =>
    intro j fs log fs' log' j' h
    simp only [runPhase1, P1Out.done.injEq] at h
    exact ⟨[], by simp [h.2.1.symm], by simp⟩
  | cons e rest ih =>
    intro j fs log fs' log' j' h
    rcases htr : tryRename failAt j fs e.old e.new with _ | fs₁
    · simp only [runPhase1, htr] at h
      exact P1Out.noConfusion h
    · simp only [runPhase1, htr] at h
      obtain ⟨ev, hev, hall⟩ := ih _ _ _ _ _ _ h
      refine ⟨.stagedOk e.old e.new :: ev, ?_, ?_⟩
      · simp [hev]
      · intro x hx
        rcases List.mem_cons.mp hx with h1 | h1
        · simp [h1, isStagedEv]
        · exact hall x h1

lemma runPhase1_fatal_structure (failAt : Nat → Bool) :
    ∀ (ts : List RenameEntry) (j : Nat) (fs : Fs) (log : List Ev)
      (fs' : Fs) (log' : List Ev) (j' : Nat),
      runPhase1 failAt ts j fs log = .fatal fs' log' j' →
      ∃ pre e post lpre,
        ts = pre ++ e :: post ∧
        runPhase1 failAt pre j fs log = .done fs' (log ++ lpre) (j + pre.length) ∧
        (∀ x ∈ lpre, isStagedEv x = true) ∧
        tryRename failAt (j + pre.length) fs' e.old e.new = none ∧
        log' = log ++ lpre ++ [.failed e.old e.new] ∧
        j' = j + pre.length + 1 := by
  intro ts
  induction ts with
  | nil => intro j fs log fs' log' j' h; simp [runPhase1] at h
  | cons e rest ih =>
    intro j fs log fs' log' j' h
    rcases htr : tryRename failAt j fs e.old e.new with _ | fs₁
    · simp only [runPhase1, htr, P1Out.fatal.injEq] at h
      obtain ⟨hfs, hlog, hj⟩ := h
      refine ⟨[], e, rest, [], by simp, ?_, by simp, ?_, ?_, ?_⟩
      · simp [runPhase1, hfs]
      · simpa [hfs.symm] using htr
      · simp [hlog.symm]
      · simp only [List.length_nil]
        omega
    · simp only [runPhase1, htr] at h
      obtain ⟨pre, e', post, lpre, hts, hdone, hall, htry, hlog, hj⟩ :=
        ih _ _ _ _ _ _ h
      refine ⟨e :: pre, e', post, .stagedOk e.old e.new :: lpre, ?_, ?_, ?_, ?_, ?_, ?_⟩
      · simp [hts]
      · simp only [runPhase1, htr]
        rw [hdone]
        congr 1
        · simp
        · simp [List.length_cons]; omega
      · intro x hx
        rcases List.mem_cons.mp hx with h1 | h1
        · simp [h1, isStagedEv]
        · exact hall x h1
      · have : j + (e :: pre).length = (j + 1) + pre.length := by
          simp [List.length_cons]; omega
        rw [this]
        exact htry
      · simp [hlog]
      · simp [List.length_cons]; omega

/-! ## C5 — every rename failure is caught and recorded -/

/-- C5: `execute_renames` is a total function of the plan, the directory
and the failure oracle — no rename failure escapes it — and on every
input the reported `error_count` is exactly the number of per-entry
failure records in the log, and `success_count` exactly the number of
counted `[OK]` records. -/
theorem c5_failures_recorded (failAt : Nat → Bool) (hexes : Nat → String)
    (fs : Fs) (renames : List RenameEntry) :
    (execute_renames failAt hexes fs renames).error_count =
      countFailed (execute_renames failAt hexes fs renames).log ∧
    (execute_renames failAt hexes fs renames).success_count =
      countOk (execute_renames failAt hexes fs renames).log := by
  unfold execute_renames
  by_cases hnt : needs_temp renames = true
  · rw [if_pos hnt]
    dsimp only
    rcases hp : runPhase1 failAt (buildStaged hexes renames renames 0).1 0 fs [] with
      ⟨fs', log', j⟩ | ⟨fs', log', j⟩
    · dsimp only
      obtain ⟨pre, e, post, lpre, _, _, hall, _, hlog, _⟩ :=
        runPhase1_fatal_structure failAt _ _ _ _ _ _ _ hp
      have h1 : countFailed log' = 1 := by
        rw [hlog, countFailed_append, countFailed_append,
          countFailed_of_staged lpre hall]
        rfl
      have h2 : countOk log' = 0 := by
        rw [hlog, countOk_append, countOk_append, countOk_of_staged lpre hall]
        rfl
      exact ⟨h1.symm, h2.symm⟩
    · dsimp only
      obtain ⟨ev, hev, hall⟩ := runPhase1_done_log failAt _ _ _ _ _ _ _ hp
      have hcf : countFailed log' = 0 := by
        rw [hev]; simpa using countFailed_of_staged ev hall
      have hco : countOk log' = 0 := by
        rw [hev]; simpa using countOk_of_staged ev hall
      have he := runLoop_ec failAt (buildStaged hexes renames renames 0).2 j fs' log' 0 0
      have hs := runLoop_sc failAt (buildStaged hexes renames renames 0).2 j fs' log' 0 0
      rw [hcf] at he
      rw [hco] at hs
      constructor
      · rw [countFailed_append]
        have hz : countFailed [Ev.summary
            (runLoop failAt (buildStaged hexes renames renames 0).2 j fs' log' 0 0).sc
            (runLoop failAt (buildStaged hexes renames renames 0).2 j fs' log' 0 0).ec] = 0 := rfl
        omega
      · rw [countOk_append]
        have hz : countOk [Ev.summary
            (runLoop failAt (buildStaged hexes renames renames 0).2 j fs' log' 0 0).sc
            (runLoop failAt (buildStaged hexes renames renames 0).2 j fs' log' 0 0).ec] = 0 := rfl
        omega
  · rw [if_neg hnt]
    dsimp only
    have he := runLoop_ec failAt renames 0 fs [] 0 0
    have hs := runLoop_sc failAt renames 0 fs [] 0 0
    have hnilf : countFailed ([] : List Ev) = 0 := rfl
    have hnilo : countOk ([] : List Ev) = 0 := rfl
    rw [hnilf] at he
    rw [hnilo] at hs
    constructor
    · rw [countFailed_append]
      have hz : countFailed [Ev.summary
          (runLoop failAt renames 0 fs [] 0 0).sc
          (runLoop failAt renames 0 fs [] 0 0).ec] = 0 := rfl
      omega
    · rw [countOk_append]
      have hz : countOk [Ev.summary
          (runLoop failAt renames 0 fs [] 0 0).sc
          (runLoop failAt renames 0 fs [] 0 0).ec] = 0 := rfl
      omega

/-! ## String facts about generated temporary names -/

lemma string_ext {a b : String} (h : a.data = b.data) : a = b := by
  cases a
  cases b
  exact congrArg String.mk h

lemma tempName_data (h n : String) :
    (tempName h n).data = (".temp_".data ++ h.data) ++ ("_".data ++ n.data) := by
  simp [tempName, String.data_append]

lemma tempName_ne (h n s : String) (hs : s.data.head? ≠ some '.') :
    tempName h n ≠ s := by
  intro he
  apply hs
  rw [← he, tempName_data]
  rfl

lemma tempName_ne_temp (h1 h2 n1 n2 : String) (hne : n1 ≠ n2)
    (hlen : n1.length = n2.length) : tempName h1 n1 ≠ tempName h2 n2 := by
  intro he
  apply hne
  have hd := congrArg String.data he
  rw [tempName_data, tempName_data] at hd
  have hd2 : ((".temp_".data ++ h1.data) ++ "_".data) ++ n1.data =
      ((".temp_".data ++ h2.data) ++ "_".data) ++ n2.data := by
    simpa [List.append_assoc] using hd
  have e1 : n1.data.length = n1.length := rfl
  have e2 : n2.data.length = n2.length := rfl
  have hl : n1.data.length = n2.data.length := by omega
  exact string_ext (List.append_inj' hd2 hl).2

lemma tempName_inj_new (h1 h2 n1 n2 : String) (hh : h1.length = h2.length)
    (he : tempName h1 n1 = tempName h2 n2) : n1 = n2 := by
  have hd := congrArg String.data he
  rw [tempName_data, tempName_data] at hd
  have e1 : h1.data.length = h1.length := rfl
  have e2 : h2.data.length = h2.length := rfl
  have hl : (".temp_".data ++ h1.data).length = (".temp_".data ++ h2.data).length := by
    simp only [List.length_append]
    omega
  have h2' := (List.append_inj hd hl).2
  exact string_ext (List.append_cancel_left h2')

lemma take8_length (s : String) (h : 8 ≤ s.length) : (s.take 8).length = 8 := by
  rw [String.take_eq]
  show (s.data.take 8).length = 8
  rw [List.length_take]
  have h2 : s.data.length = s.length := rfl
  omega

/-- C3: for every pair of contents and every `uuid` hex stream, the swap
plan validates, and applying it leaves `B.txt` with A's original content,
`A.txt` with B's original content, two counted successes, no failures,
and no file other than `A.txt`/`B.txt` (in particular no temp file) in
the directory. -/
theorem c3_swap_roundtrip (a b : Nat) (hexes : Nat → String) :
    validate_rename_plan (fsAB2 a b) (.renames swapItems) = .ok swapPlan ∧
    (execute_renames neverFail hexes (fsAB2 a b) swapPlan).success_count = 2 ∧
    (execute_renames neverFail hexes (fsAB2 a b) swapPlan).error_count = 0 ∧
    (execute_renames neverFail hexes (fsAB2 a b) swapPlan).fs "B.txt" = some a ∧
    (execute_renames neverFail hexes (fsAB2 a b) swapPlan).fs "A.txt" = some b ∧
    (∀ n, ((execute_renames neverFail hexes (fsAB2 a b) swapPlan).fs n).isSome →
      n = "A.txt" ∨ n = "B.txt") := by
  have n1A : tempName ((hexes 0).take 8) "B.txt" ≠ "A.txt" :=
    tempName_ne _ _ _ (by decide)
  have n1B : tempName ((hexes 0).take 8) "B.txt" ≠ "B.txt" :=
    tempName_ne _ _ _ (by decide)
  have n2A : tempName ((hexes 1).take 8) "A.txt" ≠ "A.txt" :=
    tempName_ne _ _ _ (by decide)
  have n2B : tempName ((hexes 1).take 8) "A.txt" ≠ "B.txt" :=
    tempName_ne _ _ _ (by decide)
  have n12 : tempName ((hexes 0).take 8) "B.txt" ≠ tempName ((hexes 1).take 8) "A.txt" :=
    tempName_ne_temp _ _ _ _ (by decide) (by decide)
  have hbs : buildStaged hexes swapPlan swapPlan 0 =
      ([⟨"A.txt", tempName ((hexes 0).take 8) "B.txt"⟩,
        ⟨"B.txt", tempName ((hexes 1).take 8) "A.txt"⟩],
       [⟨tempName ((hexes 0).take 8) "B.txt", "B.txt"⟩,
        ⟨tempName ((hexes 1).take 8) "A.txt", "A.txt"⟩]) := rfl
  have e1 : fsRename (fsAB2 a b) "A.txt" (tempName ((hexes 0).take 8) "B.txt") "B.txt" =
      some b := by
    simp [fsRename, fsAB2, n1B.symm]
  have hstep0 : tryRename neverFail 0 (fsAB2 a b) "A.txt"
      (tempName ((hexes 0).take 8) "B.txt") =
      some (fsRename (fsAB2 a b) "A.txt" (tempName ((hexes 0).take 8) "B.txt")) := rfl
  have hstep1 : tryRename neverFail 1
      (fsRename (fsAB2 a b) "A.txt" (tempName ((hexes 0).take 8) "B.txt"))
      "B.txt" (tempName ((hexes 1).take 8) "A.txt") =
      some (fsRename
        (fsRename (fsAB2 a b) "A.txt" (tempName ((hexes 0).take 8) "B.txt"))
        "B.txt" (tempName ((hexes 1).take 8) "A.txt")) := by
    simp [tryRename, neverFail, e1]
  have hph : runPhase1 neverFail
      [⟨"A.txt", tempName ((hexes 0).take 8) "B.txt"⟩,
       ⟨"B.txt", tempName ((hexes 1).take 8) "A.txt"⟩] 0 (fsAB2 a b) [] =
      .done (fsRename
          (fsRename (fsAB2 a b) "A.txt" (tempName ((hexes 0).take 8) "B.txt"))
          "B.txt" (tempName ((hexes 1).take 8) "A.txt"))
        [.stagedOk "A.txt" (tempName ((hexes 0).take 8) "B.txt"),
         .stagedOk "B.txt" (tempName ((hexes 1).take 8) "A.txt")] 2 := by
    simp only [runPhase1, hstep0, hstep1, List.nil_append, List.singleton_append]
  have e2 : (fsRename
      (fsRename (fsAB2 a b) "A.txt" (tempName ((hexes 0).take 8) "B.txt"))
      "B.txt" (tempName ((hexes 1).take 8) "A.txt"))
      (tempName ((hexes 0).take 8) "B.txt") = some a := by
    simp [fsRename, fsAB2, n12, n1B, n1A]
  have hstep2 : tryRename neverFail 2
      (fsRename
        (fsRename (fsAB2 a b) "A.txt" (tempName ((hexes 0).take 8) "B.txt"))
        "B.txt" (tempName ((hexes 1).take 8) "A.txt"))
      (tempName ((hexes 0).take 8) "B.txt") "B.txt" =
      some (fsRename (fsRename
        (fsRename (fsAB2 a b) "A.txt" (tempName ((hexes 0).take 8) "B.txt"))
        "B.txt" (tempName ((hexes 1).take 8) "A.txt"))
        (tempName ((hexes 0).take 8) "B.txt") "B.txt") := by
    simp [tryRename, neverFail, e2]
  have e3 : (fsRename (fsRename
      (fsRename (fsAB2 a b) "A.txt" (tempName ((hexes 0).take 8) "B.txt"))
      "B.txt" (tempName ((hexes 1).take 8) "A.txt"))
      (tempName ((hexes 0).take 8) "B.txt") "B.txt")
      (tempName ((hexes 1).take 8) "A.txt") = some b := by
    simp [fsRename, fsAB2, n2B, n2A, n12.symm, n1B.symm]
  have hstep3 : tryRename neverFail 3
      (fsRename (fsRename
        (fsRename (fsAB2 a b) "A.txt" (tempName ((hexes 0).take 8) "B.txt"))
        "B.txt" (tempName ((hexes 1).take 8) "A.txt"))
        (tempName ((hexes 0).take 8) "B.txt") "B.txt")
      (tempName ((hexes 1).take 8) "A.txt") "A.txt" =
      some (fsRename (fsRename (fsRename
        (fsRename (fsAB2 a b) "A.txt" (tempName ((hexes 0).take 8) "B.txt"))
        "B.txt" (tempName ((hexes 1).take 8) "A.txt"))
        (tempName ((hexes 0).take 8) "B.txt") "B.txt")
        (tempName ((hexes 1).take 8) "A.txt") "A.txt") := by
    simp [tryRename, neverFail, e3]
  have hloop : runLoop neverFail
      [⟨tempName ((hexes 0).take 8) "B.txt", "B.txt"⟩,
       ⟨tempName ((hexes 1).take 8) "A.txt", "A.txt"⟩] 2
      (fsRename
        (fsRename (fsAB2 a b) "A.txt" (tempName ((hexes 0).take 8) "B.txt"))
        "B.txt" (tempName ((hexes 1).take 8) "A.txt"))
      [.stagedOk "A.txt" (tempName ((hexes 0).take 8) "B.txt"),
       .stagedOk "B.txt" (tempName ((hexes 1).take 8) "A.txt")] 0 0 =
      ⟨fsRename (fsRename (fsRename
          (fsRename (fsAB2 a b) "A.txt" (tempName ((hexes 0).take 8) "B.txt"))
          "B.txt" (tempName ((hexes 1).take 8) "A.txt"))
          (tempName ((hexes 0).take 8) "B.txt") "B.txt")
          (tempName ((hexes 1).take 8) "A.txt") "A.txt",
        [.stagedOk "A.txt" (tempName ((hexes 0).take 8) "B.txt"),
         .stagedOk "B.txt" (tempName ((hexes 1).take 8) "A.txt"),
         .renamedOk (tempName ((hexes 0).take 8) "B.txt") "B.txt",
         .renamedOk (tempName ((hexes 1).take 8) "A.txt") "A.txt"], 4, 2, 0⟩ := by
    simp only [runLoop, hstep2, hstep3, List.append_assoc, List.singleton_append,
      List.cons_append, List.nil_append]
  have hexec : execute_renames neverFail hexes (fsAB2 a b) swapPlan =
      ⟨fsRename (fsRename (fsRename
          (fsRename (fsAB2 a b) "A.txt" (tempName ((hexes 0).take 8) "B.txt"))
          "B.txt" (tempName ((hexes 1).take 8) "A.txt"))
          (tempName ((hexes 0).take 8) "B.txt") "B.txt")
          (tempName ((hexes 1).take 8) "A.txt") "A.txt",
        2, 0,
        [.stagedOk "A.txt" (tempName ((hexes 0).take 8) "B.txt"),
         .stagedOk "B.txt" (tempName ((hexes 1).take 8) "A.txt"),
         .renamedOk (tempName ((hexes 0).take 8) "B.txt") "B.txt",
         .renamedOk (tempName ((hexes 1).take 8) "A.txt") "A.txt",
         .summary 2 0]⟩ := by
    unfold execute_renames
    rw [if_pos (show needs_temp swapPlan = true from rfl)]
    dsimp only
    rw [hbs]
    dsimp only
    rw [hph]
    dsimp only
    rw [hloop]
    rfl
  refine ⟨rfl, ?_, ?_, ?_, ?_, ?_⟩
  · rw [hexec]
  · rw [hexec]
  · rw [hexec]
    dsimp only
    simp [fsRename, fsAB2, n2B.symm, n12, n1B]
  · rw [hexec]
    dsimp only
    simp [fsRename, fsAB2, n2B, n12.symm, n1B.symm]
  · intro n hn
    rw [hexec] at hn
    dsimp only at hn
    by_cases hA : n = "A.txt"
    · exact Or.inl hA
    by_cases hB : n = "B.txt"
    · exact Or.inr hB
    exfalso
    by_cases h1 : n = tempName ((hexes 0).take 8) "B.txt"
    · rw [h1] at hn
      simp [fsRename, fsAB2, n1A, n1B, n12] at hn
    by_cases h2 : n = tempName ((hexes 1).take 8) "A.txt"
    · rw [h2] at hn
      simp [fsRename, fsAB2, n2A, n2B] at hn
    simp [fsRename, fsAB2, hA, hB, h1, h2] at hn

/-- C6 counterexample: the generated names are only randomized, never
checked.  With the all-zero hex draw, the swap's first temp name
`.temp_00000000_B.txt` equals a file already on disk in `fsWithTemp`,
and equals the third entry's target in `mixPlanTemp` — so the claimed
guarantee is false. -/
theorem c6_counterexample :
    ¬ tempNamesCollisionFree ∧
    ".temp_00000000_B.txt" ∈ stagedTempNames hexZeros mixPlanTemp ∧
    ".temp_00000000_B.txt" ∈ mixPlanTemp.map (·.new) ∧
    fsWithTemp ".temp_00000000_B.txt" = some 9 ∧
    ".temp_00000000_B.txt" ∈ stagedTempNames hexZeros swapPlan := by
  refine ⟨?_, by decide, by decide, by decide, by decide⟩
  intro h
  have h2 := (h hexZeros fsWithTemp swapPlan (by decide)).1
    ".temp_00000000_B.txt" (by decide)
  simp [fsWithTemp] at h2

lemma buildStaged_snd_mem (hexes : Nat → String) (renames : List RenameEntry) :
    ∀ (rest : List RenameEntry) (k : Nat) (t : String),
      t ∈ ((buildStaged hexes renames rest k).2.map (·.old)) →
      ∃ k' e, e ∈ rest ∧ t = tempName ((hexes k').take 8) e.new := by
  intro rest
  induction rest with
  | nil => intro k t ht; simp [buildStaged] at ht
  | cons e r ih =>
    intro k t ht
    cases hs : isSwapEntry renames e with
    | true =>
      simp only [buildStaged, hs, if_true, List.map_cons, List.mem_cons] at ht
      rcases ht with h1 | h1
      · exact ⟨k, e, List.mem_cons_self e r, h1⟩
      · obtain ⟨k', e', he', heq⟩ := ih (k + 1) t h1
        exact ⟨k', e', List.mem_cons_of_mem e he', heq⟩
    | false =>
      simp only [buildStaged, hs, if_false] at ht
      obtain ⟨k', e', he', heq⟩ := ih k t ht
      exact ⟨k', e', List.mem_cons_of_mem e he', heq⟩

lemma buildStaged_snd_nodup (hexes : Nat → String) (renames : List RenameEntry)
    (hlen : ∀ k, 8 ≤ (hexes k).length) :
    ∀ (rest : List RenameEntry) (k : Nat),
      (rest.map (·.new)).Nodup →
      ((buildStaged hexes renames rest k).2.map (·.old)).Nodup := by
  intro rest
  induction rest with
  | nil => intro k _; simp [buildStaged]
  | cons e r ih =>
    intro k hnd
    rw [List.map_cons, List.nodup_cons] at hnd
    obtain ⟨hne, hnd'⟩ := hnd
    cases hs : isSwapEntry renames e with
    | false =>
      simp only [buildStaged, hs, if_false]
      exact ih k hnd'
    | true =>
      simp only [buildStaged, hs, if_true, List.map_cons]
      refine List.nodup_cons.mpr ⟨?_, ih (k + 1) hnd'⟩
      intro hmem
      obtain ⟨k', e', he', heq⟩ := buildStaged_snd_mem hexes renames r (k + 1) _ hmem
      have hl1 : ((hexes k).take 8).length = 8 := take8_length _ (hlen k)
      have hl2 : ((hexes k').take 8).length = 8 := take8_length _ (hlen k')
      have hnew : e.new = e'.new :=
        tempName_inj_new _ _ _ _ (hl1.trans hl2.symm) heq
      exact hne (hnew ▸ List.mem_map_of_mem (·.new) he')

/-- C6 amended: temporary names are built as `.temp_<hex8>_<final name>`;
given the fixed 8-character random infix, the temp names of distinct
staged entries are always pairwise distinct (their embedded final names
are distinct for any validated plan), and every temp name starts with a
dot — but nothing prevents a temp name from colliding with an existing
file or with a plan target that itself has the temp shape. -/
theorem c6_amended_distinct (hexes : Nat → String) (renames : List RenameEntry)
    (hlen : ∀ k, 8 ≤ (hexes k).length)
    (hnodup : (renames.map (·.new)).Nodup) :
    (stagedTempNames hexes renames).Nodup ∧
    ∀ t ∈ stagedTempNames hexes renames, t.data.head? = some '.' := by
  constructor
  · exact buildStaged_snd_nodup hexes renames hlen renames 0 hnodup
  · intro t ht
    obtain ⟨k', e, _, heq⟩ := buildStaged_snd_mem hexes renames renames 0 t ht
    rw [heq, tempName_data]
    rfl

/-- Witness for the amended C6 on the concrete swap plan with the
all-zero 32-character hex stream. -/
theorem c6_amended_witness :
    (stagedTempNames hexZeros swapPlan).Nodup ∧
    ∀ t ∈ stagedTempNames hexZeros swapPlan, t.data.head? = some '.' := by
  have hlen : ∀ k, 8 ≤ (hexZeros k).length := by
    intro k
    show 8 ≤ ("00000000000000000000000000000000" : String).length
    decide
  exact c6_amended_distinct hexZeros swapPlan hlen (by decide)

/-- C8 counterexample: two directories that differ only in a file's
modification timestamp (and two differing only in its access timestamp)
produce identical snapshots, so the snapshot records cannot carry the
modification or access timestamps the claim says they carry. -/
theorem c8_counterexample :
    list_files_in_directory dirM1 none = list_files_in_directory dirM2 none ∧
    list_files_in_directory dirM1 none = list_files_in_directory dirM3 none ∧
    dirM1 ≠ dirM2 ∧ dirM1 ≠ dirM3 := by
  decide

/-- C8 amended: the snapshot returns one record per regular file passing
the optional extension filter, sorted by name, each record carrying the
file's name, its size and its creation timestamp (modification and
access timestamps are not captured). -/
theorem c8_amended_snapshot (dir : List DirEntry)
    (extensions : Option (List String)) :
    (list_files_in_directory dir extensions).Sorted
      (fun a b : FileInfo => a.name ≤ b.name) ∧
    (list_files_in_directory dir extensions).Perm
      ((dir.filter (fun f => f.isFile && extMatch extensions f.name)).map
        toFileInfo) ∧
    (∀ fi, fi ∈ list_files_in_directory dir extensions ↔
      ∃ e ∈ dir, e.isFile = true ∧ extMatch extensions e.name = true ∧
        fi = toFileInfo e) := by
  have hperm : (list_files_in_directory dir extensions).Perm
      ((dir.filter (fun f => f.isFile && extMatch extensions f.name)).map
        toFileInfo) := by
    unfold list_files_in_directory
    dsimp only
    refine (List.perm_insertionSort _ _).trans ?_
    rw [List.filter_filter]
    have hpred : (fun f : DirEntry => extMatch extensions f.name && f.isFile) =
        (fun f : DirEntry => f.isFile && extMatch extensions f.name) := by
      funext f
      exact Bool.and_comm _ _
    rw [hpred]
  refine ⟨?_, hperm, ?_⟩
  · exact List.sorted_insertionSort _ _
  · intro fi
    rw [hperm.mem_iff]
    simp only [List.mem_map, List.mem_filter, Bool.and_eq_true]
    constructor
    · rintro ⟨e, ⟨he, hf, hx⟩, rfl⟩
      exact ⟨e, he, hf, hx, rfl⟩
    · rintro ⟨e, he, hf, hx, rfl⟩
      exact ⟨e, ⟨he, hf, hx⟩, rfl⟩

/-! ## C4 — a Phase-1 failure aborts the staged application -/

/-- C4: if the plan needs staging and some Phase-1 staging rename fails,
`execute_renames` returns immediately: the result is exactly the state
and log accumulated up to and including the failing attempt (the
completed stagings are left in place, not rolled back), the failure is
the last recorded event, no Phase-2 commit and no remaining Phase-1
rename is attempted (the log holds only staging records and the single
failure — no `[OK]` commit record and no summary), and the error count
is 1. -/
theorem c4_fatal_abort (failAt : Nat → Bool) (hexes : Nat → String)
    (fs : Fs) (renames : List RenameEntry) (fs' : Fs) (log' : List Ev) (j : Nat)
    (hstaged : needs_temp renames = true)
    (hfatal : runPhase1 failAt (buildStaged hexes renames renames 0).1 0 fs [] =
      .fatal fs' log' j) :
    execute_renames failAt hexes fs renames = ⟨fs', 0, 1, log'⟩ ∧
    (∃ pre e post lpre,
      (buildStaged hexes renames renames 0).1 = pre ++ e :: post ∧
      runPhase1 failAt pre 0 fs [] = .done fs' lpre pre.length ∧
      (∀ x ∈ lpre, isStagedEv x = true) ∧
      tryRename failAt pre.length fs' e.old e.new = none ∧
      log' = lpre ++ [.failed e.old e.new]) ∧
    (∀ x ∈ log', isStagedEv x = true ∨ isFailedEv x = true) := by
  obtain ⟨pre, e, post, lpre, hts, hdone, hall, htry, hlog, hj⟩ :=
    runPhase1_fatal_structure failAt _ _ _ _ _ _ _ hfatal
  simp only [List.nil_append, Nat.zero_add] at hdone htry hlog
  refine ⟨?_, ⟨pre, e, post, lpre, hts, hdone, hall, htry, hlog⟩, ?_⟩
  · unfold execute_renames
    rw [if_pos hstaged]
    dsimp only
    rw [hfatal]
  · intro x hx
    rw [hlog] at hx
    rcases List.mem_append.mp hx with h1 | h1
    · exact Or.inl (hall x h1)
    · rw [List.mem_singleton.mp h1]
      exact Or.inr rfl

/-- Witness for C4: on the swap plan over `fsAB` with the second staging
rename failing, `execute_renames` stops with the first file staged, one
recorded failure, and nothing further attempted. -/
theorem c4_fatal_abort_witness :
    execute_renames failSecond hexConst fsAB swapPlan =
      ⟨fsRename fsAB "A.txt" ".temp_00000000_B.txt", 0, 1,
        [.stagedOk "A.txt" ".temp_00000000_B.txt",
         .failed "B.txt" ".temp_00000000_A.txt"]⟩ :=
  (c4_fatal_abort failSecond hexConst fsAB swapPlan
    (fsRename fsAB "A.txt" ".temp_00000000_B.txt")
    [.stagedOk "A.txt" ".temp_00000000_B.txt",
     .failed "B.txt" ".temp_00000000_A.txt"] 2 rfl rfl).1

end AiFileRenamer
